import Mathlib

/-!
Verification development for the autonomous-orchestrator backend
(`src/backend/server.js`).

Shallow embedding notes:
- Money amounts (ETH) are modelled as exact rationals; the numeric literals of
  the source (`0.01`, `0.02`, `0.75`) are embedded as the rationals `1/100`,
  `2/100`, `3/4`.
- `Math.random() > 0.25` in `AIAgent.executeTask` is a nondeterministic
  boolean; it is passed as an explicit parameter.
- The async scheduling loop `Orchestrator.runCycle` is embedded as a labelled
  small-step transition relation.  The suspension points of the source (the
  `await` expressions: `findTasks`'s timer, `executeTask`'s timer, the 5-minute
  inter-cycle sleep and the 1-minute backoff sleep) delimit the atomic steps;
  everything between two suspension points runs without interleaving in the
  node event loop (the microtask queue drains before the next macrotask), so
  it is one step of the relation.  In particular the worker-counter increments
  inside `executeTask` and the aggregate increments in `runCycle` after
  `await agent.executeTask(task)` resolves happen in one such atomic step.
- External collaborators (express, ethers, the wallet provider) are modelled
  only at their boundary; `walletService.sendETH` invocations are recorded in
  the result value of the payout handler.
-/

namespace Server

/-- A task, as produced by `AIAgent.findTasks` (server.js lines 77-79):
`{ id: Date.now(), title: 'Sample Task', reward: 0.01, keywords: capabilities }`.
`Date.now()` is modelled as an arbitrary natural number supplied by the
environment. -/
structure Task where
  id : Nat
  title : String
  reward : Rat
  keywords : List String
deriving DecidableEq, Repr

/-- The value returned by `AIAgent.executeTask`: `{ success: true, earnings }`
on success, `{ success: false }` (no `earnings` field, modelled as `none`) on
failure. -/
structure TaskResult where
  success : Bool
  earnings : Option Rat
deriving DecidableEq, Repr

/-- A worker's private counters, `this.stats` of `AIAgent` (server.js line 70):
`{ tasksCompleted: 0, totalEarnings: 0, successRate: 0.75 }`. -/
structure AgentStats where
  tasksCompleted : Nat
  totalEarnings : Rat
  successRate : Rat
deriving DecidableEq, Repr

/-- The `AIAgent` class state (server.js lines 66-72). -/
structure AIAgent where
  name : String
  capabilities : List String
  stats : AgentStats
  isActive : Bool
deriving DecidableEq, Repr

/-- The `AIAgent` constructor (server.js lines 67-72). -/
def AIAgent.make (name : String) (capabilities : List String) : AIAgent :=
  { name := name
    capabilities := capabilities
    stats := { tasksCompleted := 0, totalEarnings := 0, successRate := 3 / 4 }
    isActive := true }

/-- `AIAgent.findTasks` (server.js lines 74-80): after a simulated delay it
returns a single task with reward `0.01` and the agent's capabilities as
keywords.  `now` stands for `Date.now()`. -/
def AIAgent.findTasks (a : AIAgent) (now : Nat) : List Task :=
  [{ id := now, title := "Sample Task", reward := 1 / 100, keywords := a.capabilities }]

/-- `AIAgent.executeTask` (server.js lines 82-93).  The outcome of
`Math.random() > 0.25` is the parameter `success`.  On success the worker's own
counters are incremented before returning `{ success: true, earnings: task.reward }`;
on failure the worker is unchanged and `{ success: false }` is returned. -/
def AIAgent.executeTask (a : AIAgent) (success : Bool) (task : Task) :
    AIAgent × TaskResult :=
  if success then
    ({ a with stats := { a.stats with
        tasksCompleted := a.stats.tasksCompleted + 1,
        totalEarnings := a.stats.totalEarnings + task.reward } },
     { success := true, earnings := some task.reward })
  else
    (a, { success := false, earnings := none })

/-- The per-agent snapshot returned by `AIAgent.getStats` (server.js line 95). -/
structure AgentSnapshot where
  name : String
  isActive : Bool
  tasksCompleted : Nat
  totalEarnings : Rat
  successRate : Rat
deriving DecidableEq, Repr

/-- `AIAgent.getStats` (server.js line 95). -/
def AIAgent.getStats (a : AIAgent) : AgentSnapshot :=
  { name := a.name
    isActive := a.isActive
    tasksCompleted := a.stats.tasksCompleted
    totalEarnings := a.stats.totalEarnings
    successRate := a.stats.successRate }

/-- The orchestrator aggregate, `this.stats` of `Orchestrator`
(server.js line 108): `{ totalEarnings: 0, tasksCompleted: 0, cycleCount: 0 }`. -/
structure OrchStats where
  totalEarnings : Rat
  tasksCompleted : Nat
  cycleCount : Nat
deriving DecidableEq, Repr

/-- The position of one in-flight `runCycle` invocation, i.e. which `await` it
is currently suspended at (server.js lines 118-143).
- `atTop`: about to test the `while (this.isRunning)` condition;
- `finding i rest`: suspended in `agents[i].findTasks()`, with `rest` the
  indices of the active agents still to be visited this cycle;
- `running i cur more rest`: suspended in `agents[i].executeTask(cur)`, with
  `more` the remaining (already sliced) tasks of this agent;
- `sleeping`: suspended in the 5-minute inter-cycle sleep (line 137);
- `backoff`: suspended in the 1-minute sleep of the `catch` branch (line 140). -/
inductive LoopPos where
  | atTop : LoopPos
  | finding (i : Nat) (rest : List Nat) : LoopPos
  | running (i : Nat) (cur : Task) (more : List Task) (rest : List Nat) : LoopPos
  | sleeping : LoopPos
  | backoff : LoopPos
deriving DecidableEq, Repr

/-- The sleep durations in milliseconds of the two suspended-sleep positions:
300000 ms at line 137, 60000 ms at line 140; other positions do not sleep. -/
def LoopPos.sleepMs : LoopPos → Nat
  | LoopPos.sleeping => 300000
  | LoopPos.backoff => 60000
  | _ => 0

/-- Whether a loop position is inside the `try` block of the cycle body, at a
suspension point whose awaited promise could reject (discovery or execution
plumbing).  An error raised there is caught at line 138. -/
def LoopPos.inBody : LoopPos → Bool
  | LoopPos.finding _ _ => true
  | LoopPos.running _ _ _ _ => true
  | _ => false

/-- The `Orchestrator` class state (server.js lines 99-157).  The
`walletService` field is an external collaborator and carries no modelled
state.  `loops` is the multiset of live `runCycle` invocations together with
the `await` each is suspended at; the source keeps this implicitly in the
node event loop. -/
structure Orchestrator where
  agents : List AIAgent
  isRunning : Bool
  stats : OrchStats
  loops : List LoopPos
deriving DecidableEq, Repr

/-- The agent pool constructed by the `Orchestrator` constructor
(server.js lines 102-106). -/
def initAgents : List AIAgent :=
  [AIAgent.make "GitcoinAgent" ["smart-contract", "web3"],
   AIAgent.make "UpworkAgent" ["frontend", "react"],
   AIAgent.make "BountyAgent" ["testing", "security"]]

/-- The freshly constructed orchestrator (server.js lines 100-109): not
running, all counters zero, no live loop invocation. -/
def init : Orchestrator :=
  { agents := initAgents
    isRunning := false
    stats := { totalEarnings := 0, tasksCompleted := 0, cycleCount := 0 }
    loops := [] }

/-- `Orchestrator.stop` (server.js line 156): sets the running flag false. -/
def Orchestrator.stop (s : Orchestrator) : Orchestrator :=
  { s with isRunning := false }

/-- `Orchestrator.start` (server.js lines 111-116): returns immediately if
already running; otherwise sets the flag and calls `this.runCycle()` without
awaiting it, i.e. a new loop invocation appears, suspended at its first
`while` test. -/
def Orchestrator.start (s : Orchestrator) : Orchestrator :=
  if s.isRunning then s
  else { s with isRunning := true, loops := LoopPos.atTop :: s.loops }

/-- Whether `agents[i]` exists and has `isActive = true`. -/
def activeAt (agents : List AIAgent) (i : Nat) : Bool :=
  match agents.get? i with
  | some a => a.isActive
  | none => false

/-- The indices selected by `this.agents.filter(a => a.isActive)`
(server.js line 124), in pool order. -/
def activeIdxs (agents : List AIAgent) : List Nat :=
  (List.range agents.length).filter (fun i => activeAt agents i)

/-- Where the loop suspends next after finishing with one agent: the next
active agent's `findTasks`, or the inter-cycle sleep when the cycle's `for`
loop is exhausted. -/
def nextAgent : List Nat → LoopPos
  | [] => LoopPos.sleeping
  | i :: rest => LoopPos.finding i rest

/-- Where the loop suspends after `findTasks` resolves with `tasks`
(already capped by `tasks.slice(0, 2)`, line 126): the first task's
`executeTask`, or the next agent when the list is empty. -/
def afterFind (i : Nat) (rest : List Nat) (tasks : List Task) : LoopPos :=
  match tasks with
  | [] => nextAgent rest
  | t :: ts => LoopPos.running i t ts rest

/-- Where the loop suspends after an `executeTask` resolves: the agent's next
sliced task, or the next agent / the sleep. -/
def afterExec (i : Nat) (more : List Task) (rest : List Nat) : LoopPos :=
  match more with
  | t :: ts => LoopPos.running i t ts rest
  | [] => nextAgent rest

/-- The state change of the step that runs from a `while` test that saw
`isRunning = true` up to the first suspension of the new cycle:
`this.stats.cycleCount++` (line 121), then the active-agent filter and, for
the first active agent, the call into `findTasks` (all synchronous up to the
timer `await`). -/
def beginCycleFn (s : Orchestrator) (j : Nat) : Orchestrator :=
  { s with
    stats := { s.stats with cycleCount := s.stats.cycleCount + 1 }
    loops := s.loops.set j (nextAgent (activeIdxs s.agents)) }

/-- The state change of the step where loop `j`'s `findTasks` for agent `a`
resolves: the returned tasks are capped by `slice(0, 2)` and the loop proceeds
to the first `executeTask` (lines 125-127). -/
def foundFn (s : Orchestrator) (j i : Nat) (rest : List Nat) (now : Nat)
    (a : AIAgent) : Orchestrator :=
  { s with loops := s.loops.set j (afterFind i rest ((a.findTasks now).take 2)) }

/-- The state change of the step where loop `j`'s `executeTask` for agent `a`
resolves with outcome `b`: the worker's own counters are updated inside
`executeTask` (lines 86-89) and, when `result.success`, the aggregate is
updated by `runCycle` (lines 128-131); both happen in the same microtask
drain, i.e. in this one atomic step. -/
def execFn (s : Orchestrator) (j i : Nat) (cur : Task) (more : List Task)
    (rest : List Nat) (b : Bool) (a : AIAgent) : Orchestrator :=
  let r := a.executeTask b cur
  { agents := s.agents.set i r.1
    isRunning := s.isRunning
    stats :=
      if r.2.success then
        { totalEarnings := s.stats.totalEarnings + (r.2.earnings.getD 0)
          tasksCompleted := s.stats.tasksCompleted + 1
          cycleCount := s.stats.cycleCount }
      else s.stats
    loops := s.loops.set j (afterExec i more rest) }

/-- The state change when an awaited discovery/execution promise of loop `j`
rejects: the `catch` at line 138 runs and the loop suspends in the 1-minute
backoff sleep (line 140). -/
def errorFn (s : Orchestrator) (j : Nat) : Orchestrator :=
  { s with loops := s.loops.set j LoopPos.backoff }

/-- The state change when a sleeping loop's timer fires: back to the `while`
test. -/
def wakeFn (s : Orchestrator) (j : Nat) : Orchestrator :=
  { s with loops := s.loops.set j LoopPos.atTop }

/-- The state change when loop `j`'s `while` test sees `isRunning = false`:
`runCycle` returns and the invocation disappears. -/
def exitFn (s : Orchestrator) (j : Nat) : Orchestrator :=
  { s with loops := s.loops.eraseIdx j }

/-- Labels of the transition relation: the two control-surface calls plus the
scheduler steps of the live loop invocations. -/
inductive Label where
  | stop : Label
  | start : Label
  | exitLoop (j : Nat) : Label
  | beginCycle (j : Nat) : Label
  | found (j : Nat) (now : Nat) : Label
  | executed (j : Nat) (b : Bool) : Label
  | cycleError (j : Nat) : Label
  | wake (j : Nat) : Label
deriving DecidableEq, Repr

/-- The small-step transition relation of the orchestrator.  Steps are the
atomic segments between suspension points of `runCycle`, plus the synchronous
`stop()` / `start()` calls arriving from the control surface, which may
interleave anywhere between steps. -/
inductive Step : Label → Orchestrator → Orchestrator → Prop where
  | stop (s : Orchestrator) : Step Label.stop s (Orchestrator.stop s)
  | start (s : Orchestrator) : Step Label.start s (Orchestrator.start s)
  | exitLoop (s : Orchestrator) (j : Nat)
      (h : s.loops.get? j = some LoopPos.atTop) (hr : s.isRunning = false) :
      Step (Label.exitLoop j) s (exitFn s j)
  | beginCycle (s : Orchestrator) (j : Nat)
      (h : s.loops.get? j = some LoopPos.atTop) (hr : s.isRunning = true) :
      Step (Label.beginCycle j) s (beginCycleFn s j)
  | found (s : Orchestrator) (j i : Nat) (rest : List Nat) (now : Nat)
      (a : AIAgent)
      (h : s.loops.get? j = some (LoopPos.finding i rest))
      (ha : s.agents.get? i = some a) :
      Step (Label.found j now) s (foundFn s j i rest now a)
  | executed (s : Orchestrator) (j i : Nat) (cur : Task) (more : List Task)
      (rest : List Nat) (b : Bool) (a : AIAgent)
      (h : s.loops.get? j = some (LoopPos.running i cur more rest))
      (ha : s.agents.get? i = some a) :
      Step (Label.executed j b) s (execFn s j i cur more rest b a)
  | cycleError (s : Orchestrator) (j : Nat) (p : LoopPos)
      (h : s.loops.get? j = some p) (hp : p.inBody = true) :
      Step (Label.cycleError j) s (errorFn s j)
  | wake (s : Orchestrator) (j : Nat) (p : LoopPos)
      (h : s.loops.get? j = some p)
      (hp : p = LoopPos.sleeping ∨ p = LoopPos.backoff) :
      Step (Label.wake j) s (wakeFn s j)

/-- Some step with some label. -/
def StepAny (s s' : Orchestrator) : Prop := ∃ l, Step l s s'

/-- Reachability along any number of steps. -/
def Steps : Orchestrator → Orchestrator → Prop := Relation.ReflTransGen StepAny

/-- The snapshot returned by `Orchestrator.getStats` (server.js lines 145-154).
The `lastSync` wall-clock string is not modelled. -/
structure StatsSnapshot where
  isRunning : Bool
  totalEarnings : Rat
  tasksCompleted : Nat
  agentsActive : Nat
  agents : List AgentSnapshot
deriving DecidableEq, Repr

/-- `Orchestrator.getStats` (server.js lines 145-154). -/
def Orchestrator.getStats (s : Orchestrator) : StatsSnapshot :=
  { isRunning := s.isRunning
    totalEarnings := s.stats.totalEarnings
    tasksCompleted := s.stats.tasksCompleted
    agentsActive := (s.agents.filter (fun a => a.isActive)).length
    agents := s.agents.map AIAgent.getStats }

/-- The request body of `POST /api/payout` as the handler reads it
(server.js line 213): both fields may be absent.  The amount, when present, is
a number (modelled as an exact rational). -/
structure PayoutBody where
  toAddress : Option String
  amount : Option Rat
deriving DecidableEq, Repr

/-- The observable outcome of the `POST /api/payout` handler
(server.js lines 207-224), up to the point where control leaves the core:
- `unauthorized`: the 403 response of line 211;
- `missingFields`: the 400 response of line 214;
- `transferred addr net fee`: `walletService.sendETH(addr, net)` was invoked
  (line 218) after computing `fee` (line 216); whatever the ledger client then
  does is outside the core. -/
inductive PayoutResult where
  | unauthorized : PayoutResult
  | missingFields : PayoutResult
  | transferred (toAddress : String) (netAmount : Rat) (fee : Rat) : PayoutResult
deriving DecidableEq, Repr

/-- JavaScript truthiness of the possibly-absent `toAddress` string:
`undefined` and the empty string are falsy. -/
def truthyString : Option String → Bool
  | none => false
  | some s => decide (s ≠ "")

/-- JavaScript truthiness of the possibly-absent numeric `amount`:
`undefined` and `0` are falsy (`NaN`, also falsy, has no rational model). -/
def truthyNum : Option Rat → Bool
  | none => false
  | some q => decide (q ≠ 0)

/-- The `POST /api/payout` handler (server.js lines 207-224).  The admin key
comparison (`req.headers['x-api-key'] !== process.env.ADMIN_API_KEY`, line
210) happens before the body is destructured; `adminKey` is the configured
`ADMIN_API_KEY`.  The field check is `if (!toAddress || !amount)` (line 214).
Then `fee = amount * 0.02`, `netAmount = amount - fee` (lines 216-217) and
`walletService.sendETH(toAddress, netAmount)` is invoked (line 218). -/
def handlePayout (adminKey : String) (apiKey : Option String)
    (body : PayoutBody) : PayoutResult :=
  if apiKey ≠ some adminKey then PayoutResult.unauthorized
  else if !truthyString body.toAddress || !truthyNum body.amount then
    PayoutResult.missingFields
  else
    let amount := body.amount.getD 0
    let fee := amount * (2 / 100)
    let netAmount := amount - fee
    PayoutResult.transferred (body.toAddress.getD "") netAmount fee

/-- Whether the payout handler reached the `walletService.sendETH` call. -/
def sendEthInvoked : PayoutResult → Bool
  | PayoutResult.transferred _ _ _ => true
  | _ => false

/-- The response of `POST /api/emergency-stop` when the handler returns
normally. -/
inductive StopOutcome where
  | unauthorized : StopOutcome
  | stopped : StopOutcome
deriving DecidableEq, Repr

/-- The `POST /api/emergency-stop` handler (server.js lines 226-233).  The
`orchestrator` module binding may still be `undefined` before `init` reaches
line 166; the handler has no guard and no try/catch, so
`orchestrator.stop()` on `undefined` throws a `TypeError`, modelled as
`Except.error`.  With an orchestrator present it calls `stop()` and responds
with success. -/
def handleEmergencyStop (adminKey : String) (apiKey : Option String)
    (orch : Option Orchestrator) :
    Except String (StopOutcome × Option Orchestrator) :=
  if apiKey ≠ some adminKey then Except.ok (StopOutcome.unauthorized, orch)
  else
    match orch with
    | none => Except.error "TypeError: cannot call stop of undefined"
    | some s => Except.ok (StopOutcome.stopped, some s.stop)

/-- The response of `GET /api/stats`. -/
inductive StatsOutcome where
  | notInitialized : StatsOutcome
  | stats (snapshot : StatsSnapshot) : StatsOutcome
deriving DecidableEq, Repr

/-- The `GET /api/stats` handler (server.js lines 197-200): guarded by
`if (!orchestrator) return res.status(503).json(...)`, so it never throws. -/
def handleStatsQuery (orch : Option Orchestrator) : Except String StatsOutcome :=
  match orch with
  | none => Except.ok StatsOutcome.notInitialized
  | some s => Except.ok (StatsOutcome.stats s.getStats)

/-- The response of `GET /api/agents`. -/
inductive AgentsOutcome where
  | notInitialized : AgentsOutcome
  | agents (l : List AgentSnapshot) : AgentsOutcome
deriving DecidableEq, Repr

/-- The `GET /api/agents` handler (server.js lines 202-205): guarded the same
way as `GET /api/stats`. -/
def handleAgentsQuery (orch : Option Orchestrator) :
    Except String AgentsOutcome :=
  match orch with
  | none => Except.ok AgentsOutcome.notInitialized
  | some s => Except.ok (AgentsOutcome.agents (s.agents.map AIAgent.getStats))

/-- Whether a handler outcome is an uncaught exception. -/
def throws {α : Type} : Except String α → Bool
  | Except.error _ => true
  | Except.ok _ => false

/-- Sum of the worker pool's own `totalEarnings` counters. -/
def sumEarnings (l : List AIAgent) : Rat :=
  (l.map (fun a => a.stats.totalEarnings)).sum

/-- Sum of the worker pool's own `tasksCompleted` counters. -/
def sumTasks (l : List AIAgent) : Nat :=
  (l.map (fun a => a.stats.tasksCompleted)).sum

/-- The aggregate-consistency invariant of spec section 3: the orchestrator's
`totalEarnings` and `tasksCompleted` equal the sums of the workers'
corresponding counters. -/
def StatsInv (s : Orchestrator) : Prop :=
  s.stats.totalEarnings = sumEarnings s.agents ∧
  s.stats.tasksCompleted = sumTasks s.agents

/-- A worker or the aggregate satisfies the fixed-reward accounting equation:
earnings are exactly `0.01` per completed task. -/
def agentOk (a : AIAgent) : Prop :=
  a.stats.totalEarnings = (a.stats.tasksCompleted : Rat) * (1 / 100)

/-- Every task the discovery step can produce carries the fixed reward `0.01`. -/
def taskOk (t : Task) : Prop := t.reward = 1 / 100

/-- All tasks held by a suspended loop position carry the fixed reward. -/
def posOk : LoopPos → Prop
  | LoopPos.running _ cur more _ => taskOk cur ∧ ∀ t ∈ more, taskOk t
  | _ => True

/-- The fixed-reward invariant: every worker and the aggregate satisfy the
`0.01`-per-task accounting equation, and every in-flight task has reward
`0.01`. -/
def RewardInv (s : Orchestrator) : Prop :=
  (∀ a ∈ s.agents, agentOk a) ∧
  s.stats.totalEarnings = (s.stats.tasksCompleted : Rat) * (1 / 100) ∧
  ∀ p ∈ s.loops, posOk p

/-- The first worker of the pool (server.js line 103). -/
def gitcoinAgent : AIAgent := AIAgent.make "GitcoinAgent" ["smart-contract", "web3"]

/-- The task `gitcoinAgent` discovers when `Date.now()` returns `7`. -/
def sampleTask : Task :=
  { id := 7, title := "Sample Task", reward := 1 / 100,
    keywords := ["smart-contract", "web3"] }

/-- A concrete reachable state: the orchestrator was started, one cycle began,
the first agent discovered its task and executed it successfully. -/
def tracedState : Orchestrator :=
  execFn
    (foundFn (beginCycleFn (Orchestrator.start init) 0) 0 0 [1, 2] 7 gitcoinAgent)
    0 0 sampleTask [] [1, 2] true gitcoinAgent

/-- A stopped orchestrator whose loop invocation has just reached the `while`
test and is about to exit. -/
def stoppedWithLoop : Orchestrator := { init with loops := [LoopPos.atTop] }

/-- A running orchestrator whose loop is suspended in the first agent's
discovery, where a plumbing error may surface. -/
def erroredState : Orchestrator :=
  { init with isRunning := true, loops := [LoopPos.finding 0 [1, 2]] }

/-- A running orchestrator whose loop is suspended in the backoff sleep after
a caught cycle error. -/
def backoffState : Orchestrator :=
  { init with isRunning := true, loops := [LoopPos.backoff] }

/-- The state reached by start, one cycle beginning, stop, and an immediate
second start: two `runCycle` invocations are live at once. -/
def twoLoopsState : Orchestrator :=
  Orchestrator.start (Orchestrator.stop (beginCycleFn (Orchestrator.start init) 0))

/-- Updating one list element changes a mapped sum by the difference of the
images, stated cancellation-free. -/
theorem sum_map_set {α : Type} {β : Type} [AddCommMonoid β] (f : α → β) :
    ∀ (l : List α) (i : Nat) (x a : α), l.get? i = some a →
      ((l.set i x).map f).sum + f a = (l.map f).sum + f x := by
  intro l
  induction l with
  | nil => intro i x a h; simp [List.get?] at h
  | cons hd tl ih =>
    intro i x a h
    cases i with
    | zero =>
      have hhd : hd = a := by simpa [List.get?] using h
      subst hhd
      simp [List.set, add_comm, add_left_comm]
    | succ n =>
      have h' : tl.get? n = some a := by simpa [List.get?] using h
      have := ih n x a h'
      simp only [List.set, List.map, List.sum_cons]
      rw [add_assoc, this, add_assoc]

/-- Overwriting position `i` makes `get? i` return the new element, provided
the position exists. -/
theorem get?_set_self {α : Type} (l : List α) (i : Nat) (x a : α)
    (h : l.get? i = some a) : (l.set i x).get? i = some x := by
  rcases List.get?_eq_some.mp h with ⟨hl, _⟩
  exact List.get?_set_eq_of_lt x hl

/-- One step of the transition relation preserves aggregate consistency: the
only step touching either side of the invariant is a resolving
`executeTask`, and it updates the worker's counters and the aggregate
together. -/
theorem statsInv_step {l : Label} {s s' : Orchestrator}
    (hstep : Step l s s') (hs : StatsInv s) : StatsInv s' := by
  cases hstep with
  | stop s => exact hs
  | start s =>
    unfold Orchestrator.start
    split
    · exact hs
    · exact hs
  | exitLoop s j h hr => exact hs
  | beginCycle s j h hr => exact hs
  | found s j i rest now a h ha => exact hs
  | cycleError s j p h hp => exact hs
  | wake s j p h hp => exact hs
  | executed s j i cur more rest b a h ha =>
    obtain ⟨hs1, hs2⟩ := hs
    have hq := sum_map_set (fun x => x.stats.totalEarnings) s.agents i
      (a.executeTask b cur).1 a ha
    have hn := sum_map_set (fun x => x.stats.tasksCompleted) s.agents i
      (a.executeTask b cur).1 a ha
    unfold StatsInv sumEarnings sumTasks
    unfold sumEarnings at hs1
    unfold sumTasks at hs2
    cases b with
    | false =>
      simp only [execFn, AIAgent.executeTask] at hq hn ⊢
      simp at hq hn ⊢
      exact ⟨by linarith, by omega⟩
    | true =>
      simp only [execFn, AIAgent.executeTask] at hq hn ⊢
      simp at hq hn ⊢
      exact ⟨by linarith, by omega⟩

/-- Aggregate consistency holds in every reachable state of the orchestrator. -/
theorem statsInv_reachable {s : Orchestrator} (h : Steps init s) : StatsInv s := by
  induction h with
  | refl =>
    constructor
    · norm_num [init, initAgents, sumEarnings, AIAgent.make]
    · norm_num [init, initAgents, sumTasks, AIAgent.make]
  | tail hab hbc ih =>
    obtain ⟨l, hstep⟩ := hbc
    exact statsInv_step hstep ih

/-- The position a cycle starts its agent loop at holds no task. -/
theorem posOk_nextAgent (r : List Nat) : posOk (nextAgent r) := by
  cases r with
  | nil => trivial
  | cons i rest => trivial

/-- One step of the transition relation preserves the fixed-reward invariant. -/
theorem rewardInv_step {l : Label} {s s' : Orchestrator}
    (hstep : Step l s s') (hs : RewardInv s) : RewardInv s' := by
  obtain ⟨hag, haggr, hloop⟩ := hs
  cases hstep with
  | stop s => exact ⟨hag, haggr, hloop⟩
  | start s =>
    unfold Orchestrator.start
    split
    · exact ⟨hag, haggr, hloop⟩
    · refine ⟨hag, haggr, ?_⟩
      intro p hp
      rcases List.mem_cons.mp hp with hp | hp
      · subst hp; trivial
      · exact hloop p hp
  | exitLoop s j h hr =>
    exact ⟨hag, haggr, fun p hp => hloop p (List.mem_of_mem_eraseIdx hp)⟩
  | beginCycle s j h hr =>
    refine ⟨hag, haggr, ?_⟩
    intro p hp
    rcases List.mem_or_eq_of_mem_set hp with hp | hp
    · exact hloop p hp
    · subst hp; exact posOk_nextAgent _
  | found s j i rest now a h ha =>
    refine ⟨hag, haggr, ?_⟩
    intro p hp
    rcases List.mem_or_eq_of_mem_set hp with hp | hp
    · exact hloop p hp
    · subst hp
      simp [AIAgent.findTasks, afterFind, posOk, taskOk]
  | cycleError s j p h hp =>
    refine ⟨hag, haggr, ?_⟩
    intro p hp
    rcases List.mem_or_eq_of_mem_set hp with hp | hp
    · exact hloop p hp
    · subst hp; trivial
  | wake s j p h hp =>
    refine ⟨hag, haggr, ?_⟩
    intro p hp
    rcases List.mem_or_eq_of_mem_set hp with hp | hp
    · exact hloop p hp
    · subst hp; trivial
  | executed s j i cur more rest b a h ha =>
    have hpos : posOk (LoopPos.running i cur more rest) :=
      hloop _ (List.get?_mem h)
    obtain ⟨hcur, hmore⟩ := hpos
    have haok : agentOk a := hag a (List.get?_mem ha)
    refine ⟨?_, ?_, ?_⟩
    · intro x hx
      rcases List.mem_or_eq_of_mem_set hx with hx | hx
      · exact hag x hx
      · subst hx
        cases b with
        | false => exact haok
        | true =>
          unfold agentOk at haok ⊢
          unfold taskOk at hcur
          simp only [AIAgent.executeTask]
          simp
          rw [haok, hcur]
          ring
    · cases b with
      | false =>
        show s.stats.totalEarnings = ((s.stats.tasksCompleted : Nat) : Rat) * (1 / 100)
        exact haggr
      | true =>
        show s.stats.totalEarnings + cur.reward =
          ((s.stats.tasksCompleted + 1 : Nat) : Rat) * (1 / 100)
        rw [haggr, hcur]
        push_cast
        ring
    · intro p hp
      rcases List.mem_or_eq_of_mem_set hp with hp | hp
      · exact hloop p hp
      · subst hp
        cases more with
        | nil => exact posOk_nextAgent _
        | cons t ts =>
          exact ⟨hmore t (List.mem_cons_self t ts), fun u hu => hmore u (List.mem_cons_of_mem t hu)⟩

/-- The fixed-reward invariant holds in every reachable state. -/
theorem rewardInv_reachable {s : Orchestrator} (h : Steps init s) : RewardInv s := by
  induction h with
  | refl =>
    refine ⟨?_, by norm_num [init], ?_⟩
    · intro a ha
      fin_cases ha <;> simp [agentOk, AIAgent.make]
    · intro p hp
      simp [init] at hp
  | tail hab hbc ih =>
    obtain ⟨l, hstep⟩ := hbc
    exact rewardInv_step hstep ih

/-- The witness state really is reachable from the freshly constructed
orchestrator. -/
theorem tracedState_reachable : Steps init tracedState := by
  refine Relation.ReflTransGen.head ⟨Label.start, Step.start init⟩ ?_
  refine Relation.ReflTransGen.head
    ⟨Label.beginCycle 0, Step.beginCycle (Orchestrator.start init) 0 rfl rfl⟩ ?_
  refine Relation.ReflTransGen.head
    ⟨Label.found 0 7,
     Step.found (beginCycleFn (Orchestrator.start init) 0) 0 0 [1, 2] 7 gitcoinAgent rfl rfl⟩ ?_
  exact Relation.ReflTransGen.head
    ⟨Label.executed 0 true,
     Step.executed
       (foundFn (beginCycleFn (Orchestrator.start init) 0) 0 0 [1, 2] 7 gitcoinAgent)
       0 0 sampleTask [] [1, 2] true gitcoinAgent rfl rfl⟩
    Relation.ReflTransGen.refl

/-- Claim C1: at every observation point (every state reachable by the
transition relation, which a concurrent reader of `getStats` observes between
atomic steps), the orchestrator's aggregate `totalEarnings` and
`tasksCompleted` as reported by `getStats` equal the sums of the corresponding
counters over all workers.  The aggregate is updated in the same atomic step
as the worker's own counters (the `executed` step), so no reader ever observes
one update without the other. -/
theorem claim_C1_aggregate_consistency (s : Orchestrator) (h : Steps init s) :
    (Orchestrator.getStats s).totalEarnings = sumEarnings s.agents ∧
    (Orchestrator.getStats s).tasksCompleted = sumTasks s.agents :=
  statsInv_reachable h

/-- Witness for C1 at a concrete reachable state with one completed task. -/
theorem claim_C1_aggregate_consistency_witness :
    (Orchestrator.getStats tracedState).totalEarnings = sumEarnings tracedState.agents ∧
    (Orchestrator.getStats tracedState).tasksCompleted = sumTasks tracedState.agents :=
  claim_C1_aggregate_consistency tracedState tracedState_reachable

/-- Claim C9: at every observation point, for each worker and for the
orchestrator aggregate, `totalEarnings` equals exactly `0.01` times
`tasksCompleted` (money modelled as exact rationals): every discovered task
carries the fixed reward `0.01` and counters only change on successful
execution of such a task. -/
theorem claim_C9_fixed_reward_ratio (s : Orchestrator) (h : Steps init s) :
    (∀ a ∈ s.agents, a.stats.totalEarnings = (a.stats.tasksCompleted : Rat) * (1 / 100)) ∧
    (Orchestrator.getStats s).totalEarnings =
      ((Orchestrator.getStats s).tasksCompleted : Rat) * (1 / 100) := by
  obtain ⟨hag, haggr, _⟩ := rewardInv_reachable h
  exact ⟨hag, haggr⟩

/-- Witness for C9 at the same concrete reachable state; the membership
hypothesis is discharged at the pool's first worker. -/
theorem claim_C9_fixed_reward_ratio_witness :
    ((tracedState.agents.get? 0).getD gitcoinAgent).stats.totalEarnings =
      (((tracedState.agents.get? 0).getD gitcoinAgent).stats.tasksCompleted : Rat) * (1 / 100) ∧
    (Orchestrator.getStats tracedState).totalEarnings =
      ((Orchestrator.getStats tracedState).tasksCompleted : Rat) * (1 / 100) := by
  have h := claim_C9_fixed_reward_ratio tracedState tracedState_reachable
  refine ⟨?_, h.2⟩
  have hx : tracedState.agents.get? 0 =
      some ((tracedState.agents.get? 0).getD gitcoinAgent) := rfl
  exact h.1 ((tracedState.agents.get? 0).getD gitcoinAgent) (List.get?_mem hx)

/-- Claim C2: a payout request whose admin credential does not exactly match
the configured admin key is rejected with the authorization failure before any
body field is inspected (the result is the same for every body), and no
transfer call reaches the ledger client. -/
theorem claim_C2_auth_checked_first (adminKey : String) (apiKey : Option String)
    (body : PayoutBody) (h : apiKey ≠ some adminKey) :
    handlePayout adminKey apiKey body = PayoutResult.unauthorized ∧
    sendEthInvoked (handlePayout adminKey apiKey body) = false ∧
    ∀ body2 : PayoutBody,
      handlePayout adminKey apiKey body2 = handlePayout adminKey apiKey body := by
  refine ⟨?_, ?_, ?_⟩
  · simp [handlePayout, h]
  · simp [handlePayout, h, sendEthInvoked]
  · intro body2
    simp [handlePayout, h]

/-- Witness for C2: a wrong key with a fully valid body is still rejected and
the ledger client is never called. -/
theorem claim_C2_auth_checked_first_witness :
    handlePayout "secret" (some "wrong")
        { toAddress := some "0xRecipient", amount := some 1 } =
      PayoutResult.unauthorized ∧
    sendEthInvoked (handlePayout "secret" (some "wrong")
        { toAddress := some "0xRecipient", amount := some 1 }) = false := by
  have h := claim_C2_auth_checked_first "secret" (some "wrong")
    { toAddress := some "0xRecipient", amount := some 1 } (by decide)
  exact ⟨h.1, h.2.1⟩

/-- Counterexample to claim C3 as stated: an authorized payout request whose
amount is `-1` — present but not a positive number — is not rejected; the
handler computes `fee = -0.02`, `netAmount = -0.98` and invokes
`walletService.sendETH`.  The source check `if (!toAddress || !amount)`
(server.js line 214) only rejects falsy amounts. -/
theorem claim_C3_counterexample :
    ¬ (0 < (-1 : Rat)) ∧
    handlePayout "secret" (some "secret")
        { toAddress := some "0xRecipient", amount := some (-1) } =
      PayoutResult.transferred "0xRecipient" (-(49 / 50)) (-(1 / 50)) ∧
    sendEthInvoked (handlePayout "secret" (some "secret")
        { toAddress := some "0xRecipient", amount := some (-1) }) = true := by
  refine ⟨by norm_num, ?_, ?_⟩
  · simp [handlePayout, truthyString, truthyNum]
    norm_num
  · simp [handlePayout, truthyString, truthyNum, sendEthInvoked]

/-- Claim C3 as amended: for every authorized payout request whose amount is
absent or zero (a falsy amount — the check the code actually performs), the
request is rejected with the validation error and `walletService.sendETH` is
never invoked.  Amounts that are present and nonzero, including negative
ones, pass the check. -/
theorem claim_C3_amended_falsy_amount (adminKey : String) (body : PayoutBody)
    (h : body.amount = none ∨ body.amount = some 0) :
    handlePayout adminKey (some adminKey) body = PayoutResult.missingFields ∧
    sendEthInvoked (handlePayout adminKey (some adminKey) body) = false := by
  have ht : truthyNum body.amount = false := by
    rcases h with h | h <;> simp [truthyNum, h]
  constructor
  · simp [handlePayout, ht]
  · simp [handlePayout, ht, sendEthInvoked]

/-- Witness for the amended C3: an authorized request with a valid address but
no amount is rejected and the ledger client is never called. -/
theorem claim_C3_amended_falsy_amount_witness :
    handlePayout "secret" (some "secret")
        { toAddress := some "0xRecipient", amount := none } =
      PayoutResult.missingFields ∧
    sendEthInvoked (handlePayout "secret" (some "secret")
        { toAddress := some "0xRecipient", amount := none }) = false :=
  claim_C3_amended_falsy_amount "secret"
    { toAddress := some "0xRecipient", amount := none } (Or.inl rfl)

/-- Claim C5: an authorized payout of `amount = 100` at the fixed 2% fee rate
yields `fee = 2`, `netAmount = 98`, and the ledger client transfer
(`walletService.sendETH`) receives exactly `98`. -/
theorem claim_C5_fee_computation (adminKey addr : String) (h : addr ≠ "") :
    handlePayout adminKey (some adminKey)
        { toAddress := some addr, amount := some 100 } =
      PayoutResult.transferred addr 98 2 := by
  simp [handlePayout, truthyString, truthyNum, h]
  norm_num

/-- Witness for C5 at a concrete address and key. -/
theorem claim_C5_fee_computation_witness :
    handlePayout "secret" (some "secret")
        { toAddress := some "0xRecipient", amount := some 100 } =
      PayoutResult.transferred "0xRecipient" 98 2 :=
  claim_C5_fee_computation "secret" "0xRecipient" (by decide)

/-- Claim C10: an emergency-stop command with the correct admin credential
arriving before `init` has constructed the orchestrator dereferences the
undefined `orchestrator` binding and throws, while the read-only stats and
agents endpoints guard the uninitialized state and answer gracefully. -/
theorem claim_C10_emergency_stop_unguarded (key : String) :
    throws (handleEmergencyStop key (some key) none) = true ∧
    handleStatsQuery none = Except.ok StatsOutcome.notInitialized ∧
    handleAgentsQuery none = Except.ok AgentsOutcome.notInitialized := by
  refine ⟨?_, rfl, rfl⟩
  simp [handleEmergencyStop, throws]

/-- Claim C6: `executeTask` on success increments the executing worker's own
`tasksCompleted` by one and `totalEarnings` by `task.reward` (leaving its
identity fields alone) before returning `success = true` with
`earnings = task.reward`; on failure it leaves the worker unchanged and
returns `success = false` with no earnings field. -/
theorem claim_C6_executeTask_contract (a : AIAgent) (t : Task) (b : Bool) :
    (b = true →
      (a.executeTask b t).1.stats.tasksCompleted = a.stats.tasksCompleted + 1 ∧
      (a.executeTask b t).1.stats.totalEarnings = a.stats.totalEarnings + t.reward ∧
      (a.executeTask b t).1.name = a.name ∧
      (a.executeTask b t).1.capabilities = a.capabilities ∧
      (a.executeTask b t).1.isActive = a.isActive ∧
      (a.executeTask b t).2 = { success := true, earnings := some t.reward }) ∧
    (b = false →
      (a.executeTask b t).1 = a ∧
      (a.executeTask b t).2 = { success := false, earnings := none }) := by
  constructor
  · intro hb
    subst hb
    simp [AIAgent.executeTask]
  · intro hb
    subst hb
    simp [AIAgent.executeTask]

/-- Witness for C6 at the first worker and its discovered task, for both
outcomes. -/
theorem claim_C6_executeTask_contract_witness :
    ((gitcoinAgent.executeTask true sampleTask).1.stats.tasksCompleted =
        gitcoinAgent.stats.tasksCompleted + 1 ∧
      (gitcoinAgent.executeTask true sampleTask).1.stats.totalEarnings =
        gitcoinAgent.stats.totalEarnings + sampleTask.reward ∧
      (gitcoinAgent.executeTask true sampleTask).1.name = gitcoinAgent.name ∧
      (gitcoinAgent.executeTask true sampleTask).1.capabilities = gitcoinAgent.capabilities ∧
      (gitcoinAgent.executeTask true sampleTask).1.isActive = gitcoinAgent.isActive ∧
      (gitcoinAgent.executeTask true sampleTask).2 =
        { success := true, earnings := some sampleTask.reward }) ∧
    ((gitcoinAgent.executeTask false sampleTask).1 = gitcoinAgent ∧
      (gitcoinAgent.executeTask false sampleTask).2 =
        { success := false, earnings := none }) :=
  ⟨(claim_C6_executeTask_contract gitcoinAgent sampleTask true).1 rfl,
   (claim_C6_executeTask_contract gitcoinAgent sampleTask false).2 rfl⟩

/-- Claim C4: `stop()` immediately clears the running flag while changing no
statistics and no worker state; once the flag is false no new cycle can begin
(the loop observes the flag at the iteration boundary, so no discovery or
execution beyond the current iteration occurs) and the loop's exit step
changes no statistics; a subsequent `start()` resumes with all accumulated
statistics and worker counters preserved, with a fresh loop invocation at the
iteration boundary. -/
theorem claim_C4_stop_then_start :
    (∀ s s', Step Label.stop s s' →
      s'.isRunning = false ∧ s'.stats = s.stats ∧ s'.agents = s.agents) ∧
    (∀ s j s', s.isRunning = false → ¬ Step (Label.beginCycle j) s s') ∧
    (∀ s j s', Step (Label.exitLoop j) s s' →
      s.isRunning = false ∧ s'.stats = s.stats ∧ s'.agents = s.agents) ∧
    (∀ s s', s.isRunning = false → Step Label.start s s' →
      s'.isRunning = true ∧ s'.stats = s.stats ∧ s'.agents = s.agents ∧
      s'.loops.get? 0 = some LoopPos.atTop) := by
  refine ⟨?_, ?_, ?_, ?_⟩
  · intro s s' h
    cases h
    exact ⟨rfl, rfl, rfl⟩
  · intro s j s' hr h
    cases h with
    | beginCycle _ _ hj hrun =>
      rw [hr] at hrun
      exact Bool.noConfusion hrun
  · intro s j s' h
    cases h with
    | exitLoop _ _ hj hrun => exact ⟨hrun, rfl, rfl⟩
  · intro s s' hr h
    cases h
    simp [Orchestrator.start, hr]

/-- Witness for C4: stopping the concrete traced state preserves its
statistics; no cycle can begin on the stopped fresh orchestrator; a stopped
loop exits without touching statistics; restarting preserves statistics. -/
theorem claim_C4_stop_then_start_witness :
    ((Orchestrator.stop tracedState).isRunning = false ∧
      (Orchestrator.stop tracedState).stats = tracedState.stats ∧
      (Orchestrator.stop tracedState).agents = tracedState.agents) ∧
    (¬ Step (Label.beginCycle 0) init init) ∧
    (stoppedWithLoop.isRunning = false ∧
      (exitFn stoppedWithLoop 0).stats = stoppedWithLoop.stats ∧
      (exitFn stoppedWithLoop 0).agents = stoppedWithLoop.agents) ∧
    ((Orchestrator.start init).isRunning = true ∧
      (Orchestrator.start init).stats = init.stats ∧
      (Orchestrator.start init).agents = init.agents ∧
      (Orchestrator.start init).loops.get? 0 = some LoopPos.atTop) := by
  refine ⟨?_, ?_, ?_, ?_⟩
  · exact claim_C4_stop_then_start.1 tracedState _ (Step.stop tracedState)
  · exact claim_C4_stop_then_start.2.1 init 0 init rfl
  · exact claim_C4_stop_then_start.2.2.1 stoppedWithLoop 0 (exitFn stoppedWithLoop 0)
      (Step.exitLoop stoppedWithLoop 0 rfl rfl)
  · exact claim_C4_stop_then_start.2.2.2 init (Orchestrator.start init) rfl (Step.start init)

/-- Claim C7: an error raised at a discovery/execution suspension point is
caught at the cycle boundary: the loop invocation survives (it moves to the
backoff sleep, which at 60000 ms is shorter than the regular 300000 ms
sleep), no state is lost, and — while the orchestrator is running — the loop
continues: after the backoff wake and the next iteration boundary,
`cycleCount` has increased by one.  The loop never terminates because of a
per-cycle error: the only step that turns the running flag off is the
explicit `stop()`. -/
theorem claim_C7_cycle_error_recovery :
    (∀ s j s', Step (Label.cycleError j) s s' →
      s'.isRunning = s.isRunning ∧ s'.stats = s.stats ∧ s'.agents = s.agents ∧
      s'.loops.get? j = some LoopPos.backoff) ∧
    (LoopPos.sleepMs LoopPos.backoff = 60000 ∧
      LoopPos.sleepMs LoopPos.sleeping = 300000) ∧
    (∀ s j, s.isRunning = true → s.loops.get? j = some LoopPos.backoff →
      ∃ s' s'', Step (Label.wake j) s s' ∧ Step (Label.beginCycle j) s' s'' ∧
        s''.stats.cycleCount = s.stats.cycleCount + 1 ∧ s''.isRunning = true) ∧
    (∀ l s s', Step l s s' → s.isRunning = true → s'.isRunning = false →
      l = Label.stop) := by
  refine ⟨?_, ⟨rfl, rfl⟩, ?_, ?_⟩
  · intro s j s' h
    cases h with
    | cycleError _ _ p hj hp =>
      exact ⟨rfl, rfl, rfl, get?_set_self s.loops j LoopPos.backoff p hj⟩
  · intro s j hr hj
    refine ⟨wakeFn s j, beginCycleFn (wakeFn s j) j,
      Step.wake s j LoopPos.backoff hj (Or.inr rfl), ?_, rfl, hr⟩
    exact Step.beginCycle (wakeFn s j) j
      (get?_set_self s.loops j LoopPos.atTop LoopPos.backoff hj) hr
  · intro l s s' hstep hr hr'
    cases hstep with
    | stop _ => rfl
    | start _ => simp [Orchestrator.start, hr] at hr'
    | exitLoop _ _ hj hrun =>
      rw [hr] at hrun
      exact Bool.noConfusion hrun
    | beginCycle _ _ hj hrun => simp [beginCycleFn, hr] at hr'
    | found _ _ _ _ _ _ hj ha => simp [foundFn, hr] at hr'
    | executed _ _ _ _ _ _ _ _ hj ha => simp [execFn, hr] at hr'
    | cycleError _ _ p hj hp => simp [errorFn, hr] at hr'
    | wake _ _ p hj hp => simp [wakeFn, hr] at hr'

/-- Witness for C7: a concrete error during the first agent's discovery moves
the loop to the backoff sleep with all statistics intact, and from the
backoff state the loop provably continues into cycle 1. -/
theorem claim_C7_cycle_error_recovery_witness :
    ((errorFn erroredState 0).isRunning = true ∧
      (errorFn erroredState 0).stats = erroredState.stats ∧
      (errorFn erroredState 0).agents = erroredState.agents ∧
      (errorFn erroredState 0).loops.get? 0 = some LoopPos.backoff) ∧
    (∃ s' s'', Step (Label.wake 0) backoffState s' ∧
      Step (Label.beginCycle 0) s' s'' ∧
      s''.stats.cycleCount = backoffState.stats.cycleCount + 1 ∧
      s''.isRunning = true) := by
  constructor
  · exact claim_C7_cycle_error_recovery.1 erroredState 0 (errorFn erroredState 0)
      (Step.cycleError erroredState 0 (LoopPos.finding 0 [1, 2]) rfl rfl)
  · exact claim_C7_cycle_error_recovery.2.2.1 backoffState 0 rfl rfl

/-- Claim C8 as amended: `start()` while already running is a no-op (no state
change, no second loop launched); from a non-running state it sets the flag
and launches exactly one new loop invocation with all statistics preserved;
hence at most one loop instance is active provided no loop invocation from an
earlier `start()` is still live.  (Without that proviso the claim fails: see
the counterexample, where `start()` after `stop()` overlaps the old loop that
has not yet observed the cleared flag.) -/
theorem claim_C8_amended_start_idempotent :
    (∀ s s', s.isRunning = true → Step Label.start s s' → s' = s) ∧
    (∀ s s', s.isRunning = false → Step Label.start s s' →
      s'.isRunning = true ∧ s'.stats = s.stats ∧ s'.agents = s.agents ∧
      s'.loops = LoopPos.atTop :: s.loops) ∧
    (∀ s s', s.loops = [] → Step Label.start s s' → s'.loops.length ≤ 1) := by
  refine ⟨?_, ?_, ?_⟩
  · intro s s' hr hstep
    cases hstep
    simp [Orchestrator.start, hr]
  · intro s s' hr hstep
    cases hstep
    simp [Orchestrator.start, hr]
  · intro s s' hl hstep
    cases hstep
    by_cases hb : s.isRunning <;> simp [Orchestrator.start, hb, hl]

/-- Witness for the amended C8: starting twice from the fresh orchestrator is
the same as starting once; a single `start()` sets the flag, preserves
statistics and launches one loop. -/
theorem claim_C8_amended_start_idempotent_witness :
    Orchestrator.start (Orchestrator.start init) = Orchestrator.start init ∧
    ((Orchestrator.start init).isRunning = true ∧
      (Orchestrator.start init).stats = init.stats ∧
      (Orchestrator.start init).agents = init.agents ∧
      (Orchestrator.start init).loops = LoopPos.atTop :: init.loops) ∧
    (Orchestrator.start init).loops.length ≤ 1 := by
  refine ⟨?_, ?_, ?_⟩
  · exact claim_C8_amended_start_idempotent.1 (Orchestrator.start init)
      (Orchestrator.start (Orchestrator.start init)) rfl
      (Step.start (Orchestrator.start init))
  · exact claim_C8_amended_start_idempotent.2.1 init (Orchestrator.start init) rfl
      (Step.start init)
  · exact claim_C8_amended_start_idempotent.2.2 init (Orchestrator.start init) rfl
      (Step.start init)

/-- Counterexample to claim C8 as stated ("at most one loop instance is ever
active per Orchestrator"): start the orchestrator, let the first cycle begin,
call `stop()` while the loop is mid-cycle, then call `start()` again before
the old loop has reached its `while` test.  `start()` sees `isRunning = false`
and launches a second `runCycle` invocation, while the first one is still
suspended in its discovery await and — the flag being true again — will keep
running: the reachable state `twoLoopsState` has two live loop invocations. -/
theorem claim_C8_counterexample :
    Steps init twoLoopsState ∧ twoLoopsState.loops.length = 2 := by
  constructor
  · refine Relation.ReflTransGen.head ⟨Label.start, Step.start init⟩ ?_
    refine Relation.ReflTransGen.head
      ⟨Label.beginCycle 0, Step.beginCycle (Orchestrator.start init) 0 rfl rfl⟩ ?_
    refine Relation.ReflTransGen.head
      ⟨Label.stop, Step.stop (beginCycleFn (Orchestrator.start init) 0)⟩ ?_
    exact Relation.ReflTransGen.head
      ⟨Label.start,
       Step.start (Orchestrator.stop (beginCycleFn (Orchestrator.start init) 0))⟩
      Relation.ReflTransGen.refl
  · rfl

end Server
